import Mathlib

/-!
Verification of a minimal regular-expression engine (pattern compiler plus
backtracking-free matcher), shallowly embedded from `src/main.rs`.

Strings are modelled as `List Char` (the engine's semantics are ASCII-only, so
byte offsets and character offsets coincide on the inputs considered).
The matcher's single unbounded loop (`Matcher::match_sequence`) is modelled
with an explicit fuel parameter threaded through the mutually recursive match
functions; `Fault.outOfFuel` marks a computation that exhausts its fuel (in the
source: a non-terminating loop, when it happens for every fuel) and
`Fault.panicked` marks a Rust panic (an out-of-bounds index into the capture
list, or the `usize` underflow in `*n - 1` when `n = 0`).
-/

set_option maxHeartbeats 1000000
set_option maxRecDepth 8000

namespace Grep

/-- The capture list (`matched_groups: RefCell<Vec<&str>>` in the source):
substrings pushed as groups resolve, read by backreferences.  Pushes go at the
end of the list, mirroring `Vec::push`. -/
abbrev Groups := List (List Char)

/-- Abnormal outcomes of the matcher, distinguished by the model:
`panicked` is a Rust panic, `outOfFuel` marks fuel exhaustion of the modelled
`match_sequence` loop. -/
inductive Fault where
  | panicked
  | outOfFuel

/-- The `Matcher` enum of the source: one compiled pattern node. -/
inductive Matcher where
  | StartOfLine
  | EndOfLine
  | WordChar
  | Digit
  | PositiveCharGroup (g : List Char)
  | NegativeCharGroup (g : List Char)
  | Literal (c : Char)
  | OneOrMore (m : Matcher)
  | ZeroOrOne (m : Matcher)
  | Wildcard
  | GroupStart
  | GroupEnd
  | Alteration
  | Group (left : List Matcher) (right : List Matcher)
  | Backreference (n : Nat)

/-- `str::starts_with`: `startsWith s p` is true when `p` is a prefix of `s`. -/
def startsWith : List Char → List Char → Bool
  | _, [] => true
  | [], _ :: _ => false
  | c :: s, d :: p => c == d && startsWith s p

mutual

/-- `Matcher::match_some`: match one node against the tail `s`, returning the
consumed length (`none` = no match) and the updated capture list.  The source
first runs `string.chars().next()?`, so every node fails on an empty tail.
The recursion of the `OneOrMore` loop is bounded by `fuel`. -/
def match_some : Nat → Matcher → List Char → Groups → Except Fault (Option Nat × Groups)
  | 0, _, _, _ => .error .outOfFuel
  | fuel + 1, m, s, g =>
    match s with
    | [] => .ok (none, g)
    | c :: _ =>
      match m with
      | .StartOfLine => .ok (some 0, g)
      | .EndOfLine => .ok (some 0, g)
      | .GroupStart => .ok (some 0, g)
      | .GroupEnd => .ok (some 0, g)
      | .Alteration => .ok (some 0, g)
      | .WordChar =>
        .ok (if ('a' ≤ c ∧ c ≤ 'z') ∨ ('A' ≤ c ∧ c ≤ 'Z') ∨ c = '_' then some 1 else none, g)
      | .Digit => .ok (if '0' ≤ c ∧ c ≤ '9' then some 1 else none, g)
      | .PositiveCharGroup cls => .ok (if c ∈ cls then some 1 else none, g)
      | .NegativeCharGroup cls => .ok (if c ∈ cls then none else some 1, g)
      | .Literal l => .ok (if l = c then some 1 else none, g)
      | .OneOrMore inner => match_sequence fuel inner s 0 g
      | .ZeroOrOne inner =>
        match match_some fuel inner s g with
        | .error e => .error e
        | .ok (r, g') => .ok (some (r.getD 0), g')
      | .Wildcard => .ok (some 1, g)
      | .Group left right =>
        match match_group fuel left s g with
        | .error e => .error e
        | .ok (some n, g') => .ok (some n, g')
        | .ok (none, g') => match_group fuel right s g'
      | .Backreference n =>
        match n with
        | 0 => .error .panicked
        | k + 1 =>
          match g[k]? with
          | none => .error .panicked
          | some captured =>
            .ok (if startsWith s captured then some captured.length else none, g)

/-- The loop of `Matcher::match_sequence`: repeatedly match `matcher` against
`s.drop match_count`, accumulating consumed length, until a repetition fails;
then succeed exactly when the total `match_count` is positive.  One unit of
fuel pays for each iteration. -/
def match_sequence : Nat → Matcher → List Char → Nat → Groups → Except Fault (Option Nat × Groups)
  | 0, _, _, _, _ => .error .outOfFuel
  | fuel + 1, matcher, s, match_count, g =>
    match match_some fuel matcher (s.drop match_count) g with
    | .error e => .error e
    | .ok (some matched, g') => match_sequence fuel matcher s (match_count + matched) g'
    | .ok (none, g') => .ok (if 0 < match_count then some match_count else none, g')

/-- `Matcher::match_group`: match the node sequence `matchers` against `s`; an
empty sequence fails; on success push the consumed span onto the capture list.
Captures pushed by nested nodes survive even when a later node fails (the
source mutates a shared `RefCell`). -/
def match_group : Nat → List Matcher → List Char → Groups → Except Fault (Option Nat × Groups)
  | 0, _, _, _ => .error .outOfFuel
  | fuel + 1, matchers, s, g =>
    if matchers.isEmpty then .ok (none, g)
    else
      match match_group_go fuel matchers s 0 g with
      | .error e => .error e
      | .ok (none, g') => .ok (none, g')
      | .ok (some match_len, g') => .ok (some match_len, g' ++ [s.take match_len])

/-- The `for m in matchers` loop inside `Matcher::match_group`, with
`match_len` the accumulated consumed length. -/
def match_group_go : Nat → List Matcher → List Char → Nat → Groups → Except Fault (Option Nat × Groups)
  | 0, _, _, _, _ => .error .outOfFuel
  | _ + 1, [], _, match_len, g => .ok (some match_len, g)
  | fuel + 1, m :: ms, s, match_len, g =>
    match match_some fuel m (s.drop match_len) g with
    | .error e => .error e
    | .ok (none, g') => .ok (none, g')
    | .ok (some k, g') => match_group_go fuel ms s (match_len + k) g'

end

/-- The compiled artifact (`struct Expression`). -/
structure Expression where
  matchers : List Matcher
  start_of_line : Bool
  end_of_line : Bool

/-- The `for m in &self.matchers` loop of `Expression::match_str`: walk the
node sequence, advancing `offset` into `input`; before each node the source
returns `false` when `offset >= input.len()`; after the walk, when
`end_of_line` is set, succeed only when the whole input was consumed. -/
def match_str_go (fuel : Nat) (input : List Char) (end_of_line : Bool) :
    List Matcher → Nat → Groups → Except Fault Bool
  | [], offset, _ => .ok (if end_of_line then decide (input.length ≤ offset) else true)
  | m :: ms, offset, g =>
    if input.length ≤ offset then .ok false
    else
      match match_some fuel m (input.drop offset) g with
      | .error e => .error e
      | .ok (none, _) => .ok false
      | .ok (some shift, g') => match_str_go fuel input end_of_line ms (offset + shift) g'

/-- `Expression::match_str`: one per-offset attempt, with a fresh capture
list. -/
def Expression.match_str (fuel : Nat) (e : Expression) (input : List Char) :
    Except Fault Bool :=
  match_str_go fuel input e.end_of_line e.matchers 0 []

/-- The `while input_index < input_line.len()` loop of `match_pattern`,
modelled as iteration over the listed candidate offsets in order:
a successful attempt returns `true`; a failed attempt when `start_of_line` is
set returns `false` immediately; otherwise the next offset is tried. -/
def match_pattern_go (fuel : Nat) (e : Expression) (input : List Char) :
    List Nat → Except Fault Bool
  | [] => .ok false
  | idx :: rest =>
    match e.match_str fuel (input.drop idx) with
    | .error er => .error er
    | .ok true => .ok true
    | .ok false => if e.start_of_line then .ok false else match_pattern_go fuel e input rest

/-- `match_pattern`: an empty input is rejected outright; otherwise the
candidate offsets `0, 1, …, input.length - 1` are tried in increasing order. -/
def match_pattern (fuel : Nat) (input_line : List Char) (e : Expression) :
    Except Fault Bool :=
  if input_line.isEmpty then .ok false
  else match_pattern_go fuel e input_line (List.range input_line.length)

/-- Digit-run to number, as `str::parse::<usize>` on an all-digit slice
(ASCII digits; no overflow in the `Nat` model). -/
def digitsToNat (ds : List Char) : Nat :=
  ds.foldl (fun a c => a * 10 + (c.toNat - '0'.toNat)) 0

/-- `Matcher::parse_backreference`: a backslash followed by at least one
digit; returns the referenced group number and the token length. -/
def parse_backreference (pattern : List Char) : Option (Nat × Nat) :=
  match pattern with
  | '\\' :: rest =>
    let digits := rest.takeWhile Char.isDigit
    if digits.length = 0 then none
    else some (digitsToNat digits, digits.length + 1)
  | _ => none

/-- `Matcher::try_parse`: recognize one token at the head of `pattern`,
in the source's priority order, yielding the node and its consumed length. -/
def try_parse (pattern : List Char) (previous : Option Matcher) : Option (Matcher × Nat) :=
  if startsWith pattern ['^'] then some (.StartOfLine, 1)
  else if startsWith pattern ['$'] then some (.EndOfLine, 1)
  else if startsWith pattern ['\\', 'd'] then some (.Digit, 2)
  else if startsWith pattern ['\\', 'w'] then some (.WordChar, 2)
  else
    match parse_backreference pattern with
    | some (number, length) => some (.Backreference number, length)
    | none =>
      if startsWith pattern ['[', '^'] then
        match pattern.findIdx? (fun c => c == ']') with
        | some e => some (.NegativeCharGroup ((pattern.take e).drop 2), e + 1)
        | none => none
      else if startsWith pattern ['['] then
        match pattern.findIdx? (fun c => c == ']') with
        | some e => some (.PositiveCharGroup ((pattern.take e).drop 1), e + 1)
        | none => none
      else if startsWith pattern ['+'] then
        match previous with
        | some p => some (.OneOrMore p, 1)
        | none => none
      else if startsWith pattern ['?'] then
        match previous with
        | some p => some (.ZeroOrOne p, 1)
        | none => none
      else if startsWith pattern ['.'] then some (.Wildcard, 1)
      else if startsWith pattern ['('] then some (.GroupStart, 1)
      else if startsWith pattern [')'] then some (.GroupEnd, 1)
      else if startsWith pattern ['|'] then some (.Alteration, 1)
      else
        match pattern with
        | [] => none
        | c :: _ => some (.Literal c, 1)

/-- The compiler's transient stack entry (`struct Group` in the source): where
an open group's node sequence begins, and the split point once a `|` is seen. -/
structure Group where
  start_index : Nat
  alternative_index : Option Nat

/-- Is this node a `Group` node?  (The source tests `matches!(m, Group(_, _))`
when validating a backreference.) -/
def Matcher.isGroupNode : Matcher → Bool
  | .Group _ _ => true
  | _ => false

/-- The `while pattern_index < value.len()` loop of
`impl TryFrom<&str> for Expression`.  Every recognized token advances the scan
by at least one character, so the remaining length bounds the iteration count;
`bound` makes that recursion structural (calls start with
`bound = pattern.length`, and the `bound = 0` arm with a nonempty pattern is
unreachable from `Expression.try_from`). -/
def try_from_loop : Nat → List Char → List Matcher → Bool → Bool → List Group →
    Except String Expression
  | _, [], matchers, start_of_line, end_of_line, groups =>
    if groups.isEmpty then .ok ⟨matchers, start_of_line, end_of_line⟩
    else .error "Unclosed group"
  | 0, _ :: _, _, _, _, _ => .error "Failed to parse a matcher"
  | bound + 1, c :: rest, matchers, start_of_line, end_of_line, groups =>
    match try_parse (c :: rest) matchers.getLast? with
    | none => .error "Failed to parse a matcher"
    | some (.StartOfLine, offset) =>
      try_from_loop bound ((c :: rest).drop offset) matchers true end_of_line groups
    | some (.EndOfLine, offset) =>
      try_from_loop bound ((c :: rest).drop offset) matchers start_of_line true groups
    | some (.GroupStart, offset) =>
      try_from_loop bound ((c :: rest).drop offset) matchers start_of_line end_of_line
        (groups ++ [⟨matchers.length, none⟩])
    | some (.Alteration, offset) =>
      match groups.getLast? with
      | none => .error "Alteration not in group"
      | some frame =>
        if frame.alternative_index.isSome then .error "Double alteration in group"
        else
          try_from_loop bound ((c :: rest).drop offset) matchers start_of_line end_of_line
            (groups.dropLast ++ [⟨frame.start_index, some matchers.length⟩])
    | some (.GroupEnd, offset) =>
      match groups.getLast? with
      | none => .error "Stray )"
      | some frame =>
        let alternative_index := frame.alternative_index.getD matchers.length
        let right := matchers.drop alternative_index
        let left := (matchers.take alternative_index).drop frame.start_index
        try_from_loop bound ((c :: rest).drop offset)
          ((matchers.take frame.start_index) ++ [.Group left right])
          start_of_line end_of_line groups.dropLast
    | some (.OneOrMore m, offset) =>
      try_from_loop bound ((c :: rest).drop offset) (matchers.dropLast ++ [.OneOrMore m])
        start_of_line end_of_line groups
    | some (.ZeroOrOne m, offset) =>
      try_from_loop bound ((c :: rest).drop offset) (matchers.dropLast ++ [.ZeroOrOne m])
        start_of_line end_of_line groups
    | some (.Backreference n, offset) =>
      if ((matchers.filter fun m => m.isGroupNode).length) < n then
        .error "Invalid back reference"
      else
        try_from_loop bound ((c :: rest).drop offset) (matchers ++ [.Backreference n])
          start_of_line end_of_line groups
    | some (m, offset) =>
      try_from_loop bound ((c :: rest).drop offset) (matchers ++ [m])
        start_of_line end_of_line groups

/-- `Expression::try_from`: compile a whole pattern, starting from an empty
node list, cleared anchor flags and an empty group-frame stack. -/
def Expression.try_from (pattern : List Char) : Except String Expression :=
  try_from_loop pattern.length pattern [] false false []

/-- A character the engine treats as an ordinary literal: none of the
metacharacters recognized by `Matcher::try_parse`. -/
def literalChar (c : Char) : Bool :=
  !(['^', '$', '\\', '[', '+', '?', '.', '(', ')', '|'].contains c)

/-- A pattern with no metacharacters: every character compiles to a
`Literal` node. -/
def literalPattern (p : List Char) : Bool := p.all literalChar

/-- Spec-side notion, stated from the spec's words: the subject `s` contains
`p` as a (contiguous) substring. -/
def contains_substring (s p : List Char) : Prop := ∃ pre suf, pre ++ p ++ suf = s

/-! ### General lemmas about the matcher -/

/-- On an empty tail every single-node match fails: the source runs
`string.chars().next()?` before dispatching on the node. -/
theorem match_some_nil (fuel : Nat) (m : Matcher) (g : Groups) :
    match_some (fuel + 1) m [] g = .ok (none, g) := rfl

/-- `ZeroOrOne` on a nonempty tail: run the inner node once; propagate a
fault; otherwise succeed with the inner consumed length, defaulted to `0`. -/
theorem match_some_zeroOrOne (fuel : Nat) (inner : Matcher) (c : Char) (s : List Char)
    (g : Groups) :
    match_some (fuel + 1) (.ZeroOrOne inner) (c :: s) g =
      match match_some fuel inner (c :: s) g with
      | .error e => .error e
      | .ok (r, g') => .ok (some (r.getD 0), g') := rfl

/-- `OneOrMore` on a nonempty tail enters the `match_sequence` loop at
accumulated count `0`. -/
theorem match_some_oneOrMore (fuel : Nat) (inner : Matcher) (c : Char) (s : List Char)
    (g : Groups) :
    match_some (fuel + 1) (.OneOrMore inner) (c :: s) g =
      match_sequence fuel inner (c :: s) 0 g := rfl

/-- One step of the greedy `match_sequence` loop: match the node against the
tail after the already-consumed span; on success continue with the sum, on the
first failure stop and succeed exactly when the accumulated count is
positive. -/
theorem match_sequence_step (fuel : Nat) (m : Matcher) (s : List Char) (cnt : Nat)
    (g : Groups) :
    match_sequence (fuel + 1) m s cnt g =
      match match_some fuel m (s.drop cnt) g with
      | .error e => .error e
      | .ok (some matched, g') => match_sequence fuel m s (cnt + matched) g'
      | .ok (none, g') => .ok (if 0 < cnt then some cnt else none, g') := rfl

/-- When the `match_sequence` loop terminates with a success, the total
consumed length is positive (the loop's exit test `match_count > 0`) and at
least the count it started from. -/
theorem match_sequence_pos : ∀ (fuel : Nat) (m : Matcher) (s : List Char) (cnt : Nat)
    (g : Groups) (n : Nat) (g' : Groups),
    match_sequence fuel m s cnt g = .ok (some n, g') → cnt ≤ n ∧ 0 < n
  | 0, _, _, _, _, _, _, h => absurd h (by simp [match_sequence])
  | fuel + 1, m, s, cnt, g, n, g', h => by
    rw [match_sequence_step] at h
    cases hm : match_some fuel m (s.drop cnt) g with
    | error e => rw [hm] at h; exact absurd h (by simp)
    | ok p =>
      obtain ⟨r, g₂⟩ := p
      rw [hm] at h
      cases r with
      | some k =>
        have ih := match_sequence_pos fuel m s (cnt + k) g₂ n g' h
        exact ⟨by omega, ih.2⟩
      | none =>
        by_cases hc : 0 < cnt
        · rw [if_pos hc] at h
          have : cnt = n := by injection h with h1; injection h1 with h2 _; injection h2
          omega
        · rw [if_neg hc] at h
          have : (none : Option Nat) = some n := by injection h with h1; injection h1
          exact absurd this (by simp)

/-- When the first repetition of a `OneOrMore` fails, the whole `OneOrMore`
fails (there was no repetition, so the accumulated count is `0`). -/
theorem match_some_oneOrMore_none (fuel : Nat) (m : Matcher) (c : Char) (s : List Char)
    (g g₁ : Groups) (h : match_some fuel m (c :: s) g = .ok (none, g₁)) :
    match_some (fuel + 2) (.OneOrMore m) (c :: s) g = .ok (none, g₁) := by
  show match_sequence (fuel + 1) m (c :: s) 0 g = .ok (none, g₁)
  rw [match_sequence_step, List.drop_zero, h]
  rfl

/-! ### Lemmas for the non-terminating loop of `a?+` against `"b"` -/

/-- `a?` consumes zero characters of `"b"` while matching, at any
sufficiently large fuel: this feeds the greedy loop a zero-length success. -/
theorem match_some_zo_b (f : Nat) (g : Groups) :
    match_some (f + 2) (.ZeroOrOne (.Literal 'a')) ['b'] g = .ok (some 0, g) := rfl

/-- The greedy loop over `a?` on `"b"` never exits: every unit of fuel is
consumed by another zero-length iteration. -/
theorem match_sequence_zo_b : ∀ (fuel : Nat) (g : Groups),
    match_sequence fuel (.ZeroOrOne (.Literal 'a')) ['b'] 0 g = .error .outOfFuel
  | 0, _ => rfl
  | 1, _ => rfl
  | 2, _ => rfl
  | fuel + 3, g => by
    rw [match_sequence_step, List.drop_zero, match_some_zo_b fuel g]
    exact match_sequence_zo_b (fuel + 2) g

/-- The compiled `a?+` node exhausts any fuel on the subject `"b"`. -/
theorem match_some_aqp_b (fuel : Nat) (g : Groups) :
    match_some fuel (.OneOrMore (.ZeroOrOne (.Literal 'a'))) ['b'] g = .error .outOfFuel := by
  cases fuel with
  | zero => rfl
  | succ f => exact match_sequence_zo_b f g

/-- The per-offset attempt of `a?+` on `"b"` diverges (exhausts any fuel). -/
theorem match_str_aqp_b (fuel : Nat) :
    Expression.match_str fuel ⟨[.OneOrMore (.ZeroOrOne (.Literal 'a'))], false, false⟩
      ("b".toList) = .error .outOfFuel := by
  show match_str_go fuel ['b'] false [.OneOrMore (.ZeroOrOne (.Literal 'a'))] 0 [] =
    .error .outOfFuel
  rw [match_str_go]
  simp only [List.length_cons, List.length_nil, Nat.le_zero, List.drop_zero,
    match_some_aqp_b fuel []]
  rfl

/-- The whole search of `a?+` over `"b"` diverges: the only candidate offset
is `0` and its attempt exhausts any fuel. -/
theorem match_pattern_aqp_b (fuel : Nat) :
    match_pattern fuel ("b".toList)
      ⟨[.OneOrMore (.ZeroOrOne (.Literal 'a'))], false, false⟩ = .error .outOfFuel := by
  show match_pattern_go fuel _ ['b'] (List.range 1) = .error .outOfFuel
  rw [show List.range 1 = [0] from rfl, match_pattern_go, show List.drop 0 ['b'] = ("b".toList) from rfl,
    match_str_aqp_b fuel]

/-- When the offset reaches (or passes) the end of the subject with a node
still pending, the per-offset walk of `match_str` returns `false` before
dispatching the node — even a node that could consume zero characters. -/
theorem match_str_go_at_end (fuel : Nat) (input : List Char) (eol : Bool) (m : Matcher)
    (ms : List Matcher) (k : Nat) (g : Groups) :
    match_str_go fuel input eol (m :: ms) (input.length + k) g = .ok false := by
  rw [match_str_go, if_pos (Nat.le_add_right _ _)]

/-- `startsWith s p` holds exactly when `p` followed by some tail equals `s`. -/
theorem startsWith_iff : ∀ (s p : List Char), startsWith s p = true ↔ ∃ t, p ++ t = s
  | s, [] => by simp [startsWith]
  | [], d :: p => by simp [startsWith]
  | c :: s, d :: p => by
    simp only [startsWith, Bool.and_eq_true, beq_iff_eq]
    rw [startsWith_iff s p]
    constructor
    · rintro ⟨hcd, t, ht⟩
      exact ⟨t, by simp [List.cons_append, hcd, ht]⟩
    · rintro ⟨t, ht⟩
      rw [List.cons_append] at ht
      injection ht with h1 h2
      exact ⟨h1.symm, t, h2⟩

/-! ### Lemmas about the compiler loop -/

/-- An empty remainder yields no token. -/
theorem try_parse_nil (prev : Option Matcher) : try_parse [] prev = none := rfl

/-- A remainder beginning with `|` always tokenizes as `Alteration`. -/
theorem try_parse_bar (rest : List Char) (prev : Option Matcher) :
    try_parse ('|' :: rest) prev = some (.Alteration, 1) := by
  simp [try_parse, startsWith, parse_backreference]

/-- A remainder beginning with `)` always tokenizes as `GroupEnd`. -/
theorem try_parse_close (rest : List Char) (prev : Option Matcher) :
    try_parse (')' :: rest) prev = some (.GroupEnd, 1) := by
  simp [try_parse, startsWith, parse_backreference]

/-- When the scan reaches an alternation bar with no open group frame,
compilation fails with "Alteration not in group". -/
theorem try_from_loop_bar (bound : Nat) (rest : List Char) (ms : List Matcher)
    (sol eol : Bool) :
    try_from_loop (bound + 1) ('|' :: rest) ms sol eol [] =
      .error "Alteration not in group" := by
  rw [try_from_loop, try_parse_bar]
  rfl

/-- When the scan ends with at least one group frame still open, compilation
fails with "Unclosed group". -/
theorem try_from_loop_unclosed (bound : Nat) (ms : List Matcher) (sol eol : Bool)
    (fr : Group) (gs : List Group) :
    try_from_loop bound [] ms sol eol (fr :: gs) = .error "Unclosed group" := by
  rw [try_from_loop]
  rfl

/-- When the scan reaches a `)` with no open group frame, compilation fails
with "Stray )". -/
theorem try_from_loop_stray (bound : Nat) (rest : List Char) (ms : List Matcher)
    (sol eol : Bool) :
    try_from_loop (bound + 1) (')' :: rest) ms sol eol [] = .error "Stray )" := by
  rw [try_from_loop, try_parse_close]
  rfl

/-- The backreference arm of the compiler loop: when the next token is `\n`,
compilation fails iff `n` exceeds the number of `Group` nodes in the current
flat node list; otherwise the scan pushes the node and continues. -/
theorem try_from_loop_backreference (bound : Nat) (pattern : List Char) (ms : List Matcher)
    (sol eol : Bool) (gs : List Group) (n len : Nat)
    (h : try_parse pattern ms.getLast? = some (.Backreference n, len)) :
    try_from_loop (bound + 1) pattern ms sol eol gs =
      if ((ms.filter fun m => m.isGroupNode).length) < n then .error "Invalid back reference"
      else try_from_loop bound (pattern.drop len) (ms ++ [.Backreference n]) sol eol gs := by
  cases pattern with
  | nil => rw [try_parse_nil] at h; exact absurd h (by simp)
  | cons c rest => rw [try_from_loop, h]

/-! ### Claim theorems -/

/-- C1 counterexample: the claim asserts that the compiled `([abc]+)-\1` does
not match `"cab-abc"`; in fact `match_pattern` (the search over all candidate
start offsets) returns `true` on it — at offset 1 the group captures `"ab"`,
the literal `-` matches, and the backreference finds `"ab"` at the head of
`"abc"`. -/
theorem c1_counterexample :
    Expression.try_from ("([abc]+)-\\1".toList) =
      .ok ⟨[.Group [.OneOrMore (.PositiveCharGroup ("abc".toList))] [], .Literal '-',
            .Backreference 1], false, false⟩ ∧
    match_pattern 99 ("cab-abc".toList)
      ⟨[.Group [.OneOrMore (.PositiveCharGroup ("abc".toList))] [], .Literal '-',
        .Backreference 1], false, false⟩ = .ok true := ⟨rfl, rfl⟩

/-- C1 (amended): the compiled pattern `([abc]+)-\1`, matched with the search
over all candidate start offsets, matches `"cab-cab"` and also matches
`"cab-abc"` (at offset 1, where the capturing group takes `"ab"`). -/
theorem c1_both_subjects_match :
    Expression.try_from ("([abc]+)-\\1".toList) =
      .ok ⟨[.Group [.OneOrMore (.PositiveCharGroup ("abc".toList))] [], .Literal '-',
            .Backreference 1], false, false⟩ ∧
    match_pattern 99 ("cab-cab".toList)
      ⟨[.Group [.OneOrMore (.PositiveCharGroup ("abc".toList))] [], .Literal '-',
        .Backreference 1], false, false⟩ = .ok true ∧
    match_pattern 99 ("cab-abc".toList)
      ⟨[.Group [.OneOrMore (.PositiveCharGroup ("abc".toList))] [], .Literal '-',
        .Backreference 1], false, false⟩ = .ok true := ⟨rfl, rfl, rfl⟩

/-- C2: the pattern `((a)|\1)` passes the compile-time backreference check
(one `Group` node is visible when `\1` is scanned), yet matching the subject
`"b"` evaluates the backreference with an empty capture list — the group that
would populate capture 1 sits in the failed left alternative — and the source
indexes out of bounds (`matched_groups.borrow()[*n - 1]`), a panic: the
matcher does not merely return `false`. -/
theorem c2_backreference_panic :
    Expression.try_from ("((a)|\\1)".toList) =
      .ok ⟨[.Group [.Group [.Literal 'a'] []] [.Backreference 1]], false, false⟩ ∧
    match_pattern 99 ("b".toList)
      ⟨[.Group [.Group [.Literal 'a'] []] [.Backreference 1]], false, false⟩ =
      .error .panicked := ⟨rfl, rfl⟩

/-- C3 counterexample: on the empty tail, `Optional(a)` does not return `0`
as the claim states — it fails (the source's `string.chars().next()?` aborts
every single-node match on an empty tail); consequently an attempt whose
remaining node is such a node returns `false` once the cursor is at the end
of the subject. -/
theorem c3_counterexample :
    match_some 9 (.ZeroOrOne (.Literal 'a')) [] [] = .ok (none, []) ∧
    (Except.ok ((none : Option Nat), ([] : Groups)) : Except Fault (Option Nat × Groups)) ≠
      .ok (some 0, []) ∧
    Expression.match_str 9 ⟨[.ZeroOrOne (.Literal 'a')], false, false⟩ [] = .ok false :=
  ⟨rfl, by simp, rfl⟩

/-- C3 (amended): on a nonempty tail, matching `Optional(inner)` never fails —
it returns inner's consumed length when inner matches and `0` otherwise (and
propagates inner's fault, if any); but on an empty tail every single-node
match, `Optional` included, fails, and the per-offset walk returns `false`
whenever the cursor has reached the end of the subject with a node still
remaining. -/
theorem c3_optional_semantics :
    (∀ (fuel : Nat) (inner : Matcher) (c : Char) (s : List Char) (g : Groups),
      match_some (fuel + 1) (.ZeroOrOne inner) (c :: s) g =
        match match_some fuel inner (c :: s) g with
        | .error e => .error e
        | .ok (r, g') => .ok (some (r.getD 0), g')) ∧
    (∀ (fuel : Nat) (inner : Matcher) (g : Groups),
      match_some (fuel + 1) (.ZeroOrOne inner) [] g = .ok (none, g)) ∧
    (∀ (fuel : Nat) (input : List Char) (eol : Bool) (m : Matcher) (ms : List Matcher)
      (k : Nat) (g : Groups),
      match_str_go fuel input eol (m :: ms) (input.length + k) g = .ok false) :=
  ⟨fun fuel inner c s g => match_some_zeroOrOne fuel inner c s g,
   fun fuel inner g => match_some_nil fuel (.ZeroOrOne inner) g,
   fun fuel input eol m ms k g => match_str_go_at_end fuel input eol m ms k g⟩

/-- C9: the pattern `a?+` compiles (to `OneOrMore (ZeroOrOne (Literal 'a'))`),
but matching it against the subject `"b"` does not terminate: the greedy
one-or-more loop keeps re-matching `a?`, which succeeds consuming zero
characters, so the loop exhausts every fuel bound — the source's
`match_sequence` loops forever. -/
theorem c9_nonterminating :
    Expression.try_from ("a?+".toList) =
      .ok ⟨[.OneOrMore (.ZeroOrOne (.Literal 'a'))], false, false⟩ ∧
    ∀ fuel : Nat, match_pattern fuel ("b".toList)
      ⟨[.OneOrMore (.ZeroOrOne (.Literal 'a'))], false, false⟩ = .error .outOfFuel :=
  ⟨rfl, fun fuel => match_pattern_aqp_b fuel⟩

/-- C5 counterexample: in `((a))\2` both groups are fully closed when `\2` is
scanned, so by the claim the backreference should compile; the compiler counts
only `Group` nodes in its flat node list — the inner group is buried inside the
already-closed outer group — so it sees one group and rejects `\2`. -/
theorem c5_counterexample :
    Expression.try_from ("((a))\\2".toList) = .error "Invalid back reference" := rfl

/-- C5 (amended): a backreference token `\n` fails compilation with
`InvalidBackreference` iff `n` exceeds the number of `Group` nodes in the
compiler's current flat node list, i.e. the groups already closed at the
currently-open nesting levels; a group nested inside another already-closed
group is not counted.  A backreference to a closed group that is still visible
compiles: `((a)\1)` (inner group closed, still at the open outer level) and
`(a)(b)\2` (both groups at top level) both compile. -/
theorem c5_backreference_validation :
    (∀ (bound : Nat) (pattern : List Char) (ms : List Matcher) (sol eol : Bool)
      (gs : List Group) (n len : Nat),
      try_parse pattern ms.getLast? = some (.Backreference n, len) →
      try_from_loop (bound + 1) pattern ms sol eol gs =
        if ((ms.filter fun m => m.isGroupNode).length) < n then
          .error "Invalid back reference"
        else try_from_loop bound (pattern.drop len) (ms ++ [.Backreference n]) sol eol gs) ∧
    Expression.try_from ("((a)\\1)".toList) =
      .ok ⟨[.Group [.Group [.Literal 'a'] [], .Backreference 1] []], false, false⟩ ∧
    Expression.try_from ("(a)(b)\\2".toList) =
      .ok ⟨[.Group [.Literal 'a'] [], .Group [.Literal 'b'] [], .Backreference 2],
           false, false⟩ :=
  ⟨fun bound pattern ms sol eol gs n len h =>
    try_from_loop_backreference bound pattern ms sol eol gs n len h, rfl, rfl⟩

/-- C5 witness: the backreference arm applied at a concrete configuration —
remainder `\1`, one `Group` node already in the flat list. -/
theorem c5_witness :
    try_from_loop 4 ("\\1".toList) [.Group [] []] false false [] =
      if ((([Matcher.Group [] []] : List Matcher).filter fun m => m.isGroupNode).length) < 1
      then .error "Invalid back reference"
      else try_from_loop 3 (("\\1".toList).drop 2)
        ([Matcher.Group [] []] ++ [.Backreference 1]) false false [] :=
  c5_backreference_validation.1 3 ("\\1".toList) [.Group [] []] false false [] 1 2 rfl

/-- C7: `Repeat1` (`OneOrMore`) is greedy with no backtracking: on a nonempty
tail it enters the `match_sequence` loop, which repeatedly applies the inner
node's single-node match to successive tails, summing the consumed lengths and
stopping at the first failure; a terminating success consumes a positive total
(so at least one repetition matched), and when the first repetition fails the
whole node fails; concretely, `a+` matches `"aaab"` and fails on `"b"`. -/
theorem c7_repeat1_greedy :
    (∀ (fuel : Nat) (inner : Matcher) (c : Char) (s : List Char) (g : Groups),
      match_some (fuel + 1) (.OneOrMore inner) (c :: s) g =
        match_sequence fuel inner (c :: s) 0 g) ∧
    (∀ (fuel : Nat) (m : Matcher) (s : List Char) (cnt : Nat) (g : Groups),
      match_sequence (fuel + 1) m s cnt g =
        match match_some fuel m (s.drop cnt) g with
        | .error e => .error e
        | .ok (some matched, g') => match_sequence fuel m s (cnt + matched) g'
        | .ok (none, g') => .ok (if 0 < cnt then some cnt else none, g')) ∧
    (∀ (fuel : Nat) (m : Matcher) (s : List Char) (cnt : Nat) (g : Groups) (n : Nat)
      (g' : Groups),
      match_sequence fuel m s cnt g = .ok (some n, g') → cnt ≤ n ∧ 0 < n) ∧
    (∀ (fuel : Nat) (m : Matcher) (c : Char) (s : List Char) (g g₁ : Groups),
      match_some fuel m (c :: s) g = .ok (none, g₁) →
      match_some (fuel + 2) (.OneOrMore m) (c :: s) g = .ok (none, g₁)) ∧
    Expression.try_from ("a+".toList) = .ok ⟨[.OneOrMore (.Literal 'a')], false, false⟩ ∧
    match_pattern 99 ("aaab".toList) ⟨[.OneOrMore (.Literal 'a')], false, false⟩ = .ok true ∧
    match_pattern 99 ("b".toList) ⟨[.OneOrMore (.Literal 'a')], false, false⟩ = .ok false :=
  ⟨fun fuel inner c s g => match_some_oneOrMore fuel inner c s g,
   fun fuel m s cnt g => match_sequence_step fuel m s cnt g,
   fun fuel m s cnt g n g' h => match_sequence_pos fuel m s cnt g n g' h,
   fun fuel m c s g g₁ h => match_some_oneOrMore_none fuel m c s g g₁ h,
   rfl, rfl, rfl⟩

/-- C7 witness: the positivity part applied to `a+` consuming one `a` of
`"ab"`, and the first-repetition-failure part applied to `a+` on `"ba"`. -/
theorem c7_witness :
    ((0 : Nat) ≤ 1 ∧ (0 : Nat) < 1) ∧
    match_some 7 (.OneOrMore (.Literal 'a')) ('b' :: "a".toList) [] = .ok (none, []) :=
  ⟨c7_repeat1_greedy.2.2.1 9 (.Literal 'a') ("ab".toList) 0 [] 1 [] rfl,
   c7_repeat1_greedy.2.2.2.1 5 (.Literal 'a') 'b' ("a".toList) [] [] rfl⟩

/-- C8 counterexample: the pattern `(\9` has a `(` with no matching `)` by the
end of the pattern, yet compilation fails with "Invalid back reference", not
"Unclosed group": the invalid backreference aborts the scan first. -/
theorem c8_counterexample :
    Expression.try_from ("(\\9".toList) = .error "Invalid back reference" ∧
    "Invalid back reference" ≠ "Unclosed group" := ⟨rfl, by decide⟩

/-- C8 (amended): when compilation reaches the end of the pattern with an open
group the error is `UnclosedGroup` (e.g. `"(abc"`), and when the scan reaches a
`)` with no open group it fails with `StrayGroupClose` (e.g. a lone `")"`) —
but a different compile error earlier in the pattern (e.g. the invalid
backreference in `"(\9"`) preempts these. -/
theorem c8_group_errors :
    Expression.try_from ("(abc".toList) = .error "Unclosed group" ∧
    Expression.try_from (")".toList) = .error "Stray )" ∧
    (∀ (bound : Nat) (ms : List Matcher) (sol eol : Bool) (fr : Group) (gs : List Group),
      try_from_loop bound [] ms sol eol (fr :: gs) = .error "Unclosed group") ∧
    (∀ (bound : Nat) (rest : List Char) (ms : List Matcher) (sol eol : Bool),
      try_from_loop (bound + 1) (')' :: rest) ms sol eol [] = .error "Stray )") :=
  ⟨rfl, rfl,
   fun bound ms sol eol fr gs => try_from_loop_unclosed bound ms sol eol fr gs,
   fun bound rest ms sol eol => try_from_loop_stray bound rest ms sol eol⟩

/-- C10: an alternation bar reached by the scan while no group is open fails
compilation with the error "Alteration not in group"; in particular the
top-level pattern `cat|dog` is never compiled into an `Expression`. -/
theorem c10_toplevel_alternation :
    Expression.try_from ("cat|dog".toList) = .error "Alteration not in group" ∧
    (∀ (bound : Nat) (rest : List Char) (ms : List Matcher) (sol eol : Bool),
      try_from_loop (bound + 1) ('|' :: rest) ms sol eol [] =
        .error "Alteration not in group") :=
  ⟨rfl, fun bound rest ms sol eol => try_from_loop_bar bound rest ms sol eol⟩

/-! ### Lemmas for literal patterns (claim C4) -/

/-- A remainder headed by a non-metacharacter does not tokenize as a
backreference. -/
theorem parse_backreference_not_backslash (c : Char) (rest : List Char) (h : ¬ c = '\\') :
    parse_backreference (c :: rest) = none := by
  rw [parse_backreference.eq_def]
  split
  · next heq => injection heq with h1 _; exact absurd h1 h
  · rfl

/-- A remainder headed by a non-metacharacter tokenizes as a one-character
literal. -/
theorem try_parse_literal (c : Char) (rest : List Char) (prev : Option Matcher)
    (h : literalChar c = true) : try_parse (c :: rest) prev = some (.Literal c, 1) := by
  have h' : c ∉ (['^', '$', '\\', '[', '+', '?', '.', '(', ')', '|'] : List Char) := by
    simpa [literalChar] using h
  simp only [List.mem_cons, List.mem_singleton, not_or] at h'
  obtain ⟨h1, h2, h3, h4, h5, h6, h7, h8, h9, h10⟩ := h'
  have hpb := parse_backreference_not_backslash c rest h3
  simp [try_parse, startsWith, hpb, h1, h2, h3, h4, h5, h6, h7, h8, h9, h10]

/-- Compiling a pattern of literal characters appends one `Literal` node per
character, never touches the group stack, and never fails. -/
theorem try_from_loop_literal : ∀ (p : List Char) (ms : List Matcher) (sol eol : Bool),
    literalPattern p = true →
    try_from_loop p.length p ms sol eol [] = .ok ⟨ms ++ p.map .Literal, sol, eol⟩
  | [], ms, sol, eol, _ => by simp [try_from_loop]
  | c :: p, ms, sol, eol, h => by
    rw [literalPattern, List.all_cons, Bool.and_eq_true] at h
    show try_from_loop (p.length + 1) (c :: p) ms sol eol [] = _
    rw [try_from_loop, try_parse_literal c p ms.getLast? h.1]
    show try_from_loop p.length p (ms ++ [.Literal c]) sol eol [] = _
    rw [try_from_loop_literal p (ms ++ [Matcher.Literal c]) sol eol h.2]
    simp

/-- Walking a sequence of `Literal` nodes from offset `off` succeeds exactly
when the literal word is a prefix of the subject tail at that offset (with no
end anchor, the leftover tail is irrelevant). -/
theorem match_str_go_literal : ∀ (p : List Char) (fuel : Nat) (input : List Char) (off : Nat)
    (g : Groups),
    match_str_go (fuel + 1) input false (p.map .Literal) off g =
      .ok (startsWith (input.drop off) p)
  | [], fuel, input, off, g => by
    simp [match_str_go, startsWith]
  | c :: p, fuel, input, off, g => by
    rw [List.map_cons, match_str_go]
    by_cases hlen : input.length ≤ off
    · rw [if_pos hlen, List.drop_eq_nil_of_le hlen]
      rfl
    · rw [if_neg hlen]
      have hlt : off < input.length := Nat.lt_of_not_le hlen
      rw [List.drop_eq_getElem_cons hlt]
      have hms : match_some (fuel + 1) (.Literal c) (input[off] :: List.drop (off + 1) input) g =
          .ok (if c = input[off] then some 1 else none, g) := rfl
      rw [hms]
      by_cases hc : c = input[off]
      · rw [if_pos hc,
          show startsWith (input[off] :: List.drop (off + 1) input) (c :: p) =
            startsWith (List.drop (off + 1) input) p from by simp [startsWith, hc]]
        exact match_str_go_literal p fuel input (off + 1) g
      · rw [if_neg hc]
        have : startsWith (input[off] :: List.drop (off + 1) input) (c :: p) = false := by
          simp [startsWith]
          intro heq
          exact absurd heq.symm hc
        rw [this]

/-- The candidate-offset loop over a compiled literal pattern returns whether
some listed offset starts an occurrence of the literal word. -/
theorem match_pattern_go_literal : ∀ (offs : List Nat) (fuel : Nat) (p input : List Char),
    match_pattern_go (fuel + 1) ⟨p.map .Literal, false, false⟩ input offs =
      .ok (offs.any fun i => startsWith (input.drop i) p)
  | [], fuel, p, input => by simp [match_pattern_go]
  | i :: rest, fuel, p, input => by
    rw [match_pattern_go]
    have hstr : Expression.match_str (fuel + 1) ⟨p.map .Literal, false, false⟩ (input.drop i) =
        .ok (startsWith (input.drop i) p) := by
      show match_str_go (fuel + 1) (input.drop i) false (p.map .Literal) 0 [] = _
      rw [match_str_go_literal p fuel (input.drop i) 0 [], List.drop_zero]
    rw [hstr]
    by_cases hb : startsWith (input.drop i) p = true
    · rw [hb]
      simp [List.any_cons, hb]
    · have hb' : startsWith (input.drop i) p = false := by
        revert hb; cases startsWith (input.drop i) p <;> simp
      rw [hb']
      show match_pattern_go (fuel + 1) ⟨p.map .Literal, false, false⟩ input rest = _
      rw [match_pattern_go_literal rest fuel p input]
      simp [List.any_cons, hb']

/-- An occurrence of `p` starting strictly inside `s` is the same thing as `s`
containing `p` as a substring (for nonempty `s`; an occurrence at offset
`s.length` can only be the empty word, which also occurs at offset `0`). -/
theorem exists_offset_iff_substring (p s : List Char) (hs : s ≠ []) :
    (∃ i, i < s.length ∧ startsWith (s.drop i) p = true) ↔ contains_substring s p := by
  constructor
  · rintro ⟨i, hi, hp⟩
    obtain ⟨t, ht⟩ := (startsWith_iff (s.drop i) p).mp hp
    exact ⟨s.take i, t, by rw [List.append_assoc, ht, List.take_append_drop]⟩
  · rintro ⟨pre, suf, hps⟩
    cases p with
    | nil =>
      refine ⟨0, List.length_pos.mpr hs, ?_⟩
      rw [List.drop_zero]
      exact (startsWith_iff s []).mpr ⟨s, rfl⟩
    | cons c p' =>
      refine ⟨pre.length, ?_, ?_⟩
      · rw [← hps]
        simp [List.length_append]
      · rw [← hps, List.append_assoc, List.drop_left]
        exact (startsWith_iff _ _).mpr ⟨suf, rfl⟩

/-- C4 counterexample: with the empty pattern and the empty subject, the
subject does contain the pattern as a substring, yet the matcher returns
`false` — `match_pattern` rejects an empty input line outright. -/
theorem c4_counterexample :
    Expression.try_from [] = .ok ⟨[], false, false⟩ ∧
    match_pattern 9 [] ⟨[], false, false⟩ = .ok false ∧
    contains_substring [] [] :=
  ⟨rfl, rfl, [], [], rfl⟩

/-- C4 (amended): for every pattern `p` of non-metacharacters, compilation
yields one `Literal` node per character, and `is_match` returns `true` iff the
subject is nonempty and contains `p` as a substring (the empty subject is
rejected outright, even though it contains the empty pattern). -/
theorem c4_literal_substring (fuel : Nat) (p s : List Char) (h : literalPattern p = true) :
    Expression.try_from p = .ok ⟨p.map .Literal, false, false⟩ ∧
    (match_pattern (fuel + 1) s ⟨p.map .Literal, false, false⟩ = .ok true ↔
      (s ≠ [] ∧ contains_substring s p)) := by
  refine ⟨?_, ?_⟩
  · show try_from_loop p.length p [] false false [] = _
    rw [try_from_loop_literal p [] false false h]
    simp
  · rw [match_pattern]
    by_cases hs : s.isEmpty
    · rw [if_pos hs]
      have hnil : s = [] := List.isEmpty_iff.mp hs
      subst hnil
      simp
    · rw [if_neg hs]
      have hs' : s ≠ [] := by simpa using hs
      rw [match_pattern_go_literal (List.range s.length) fuel p s]
      constructor
      · intro h1
        have h2 : (List.range s.length).any (fun i => startsWith (s.drop i) p) = true := by
          injection h1
        rw [List.any_eq_true] at h2
        obtain ⟨i, hmem, hp⟩ := h2
        exact ⟨hs', (exists_offset_iff_substring p s hs').mp ⟨i, List.mem_range.mp hmem, hp⟩⟩
      · rintro ⟨-, hsub⟩
        obtain ⟨i, hi, hp⟩ := (exists_offset_iff_substring p s hs').mpr hsub
        have hany : (List.range s.length).any (fun i => startsWith (s.drop i) p) = true :=
          List.any_eq_true.mpr ⟨i, List.mem_range.mpr hi, hp⟩
        rw [hany]

/-- C4 witness: the literal pattern `ab` against the subject `cab`. -/
theorem c4_witness :
    Expression.try_from ("ab".toList) = .ok ⟨("ab".toList).map .Literal, false, false⟩ ∧
    (match_pattern 1 ("cab".toList) ⟨("ab".toList).map .Literal, false, false⟩ = .ok true ↔
      (("cab".toList) ≠ [] ∧ contains_substring ("cab".toList) ("ab".toList))) :=
  c4_literal_substring 0 ("ab".toList) ("cab".toList) rfl

/-! ### Lemmas for the candidate-offset loop (claim C6) -/

/-- The candidate-offset loop returns `true` exactly when the offset list
splits as `l ++ i :: r` with a successful attempt at `i`, failed (not faulted)
attempts at every offset of `l`, and — when the expression is start-anchored —
`l` empty, since a failed anchored attempt stops the loop at once. -/
theorem match_pattern_go_iff : ∀ (offs : List Nat) (fuel : Nat) (e : Expression)
    (input : List Char),
    match_pattern_go fuel e input offs = .ok true ↔
      ∃ l i r, offs = l ++ i :: r ∧ e.match_str fuel (input.drop i) = .ok true ∧
        (∀ j ∈ l, e.match_str fuel (input.drop j) = .ok false) ∧
        (e.start_of_line = true → l = [])
  | [], fuel, e, input => by
    constructor
    · intro h; exact absurd h (by simp [match_pattern_go])
    · rintro ⟨l, i, r, hd, -, -, -⟩
      exact absurd hd (by cases l <;> simp)
  | o :: rest, fuel, e, input => by
    rw [match_pattern_go]
    cases hstr : e.match_str fuel (input.drop o) with
    | error er =>
      constructor
      · intro h; exact absurd h (by simp)
      · rintro ⟨l, i, r, hd, hok, hall, hsol⟩
        cases l with
        | nil =>
          injection hd with h1 h2
          subst h1
          rw [hstr] at hok
          exact absurd hok (by simp)
        | cons a l' =>
          injection hd with h1 h2
          subst h1
          have := hall o (by simp)
          rw [hstr] at this
          exact absurd this (by simp)
    | ok b =>
      cases b with
      | true =>
        constructor
        · intro _
          exact ⟨[], o, rest, rfl, hstr, by simp, fun _ => rfl⟩
        · intro _; rfl
      | false =>
        by_cases hsol : e.start_of_line = true
        · rw [if_pos hsol]
          constructor
          · intro h; exact absurd h (by simp)
          · rintro ⟨l, i, r, hd, hok, hall, hsi⟩
            have hl := hsi hsol
            subst hl
            injection hd with h1 h2
            subst h1
            rw [hstr] at hok
            exact absurd hok (by simp)
        · have hsol' : e.start_of_line = false := by
            revert hsol; cases e.start_of_line <;> simp
          rw [if_neg hsol]
          rw [match_pattern_go_iff rest fuel e input]
          constructor
          · rintro ⟨l, i, r, hd, hok, hall, -⟩
            refine ⟨o :: l, i, r, by rw [hd, List.cons_append], hok, ?_,
              fun hc => absurd hc hsol⟩
            intro j hj
            rcases List.mem_cons.mp hj with hj | hj
            · subst hj; exact hstr
            · exact hall j hj
          · rintro ⟨l, i, r, hd, hok, hall, -⟩
            cases l with
            | nil =>
              injection hd with h1 h2
              subst h1
              rw [hstr] at hok
              exact absurd hok (by simp)
            | cons a l' =>
              injection hd with h1 h2
              exact ⟨l', i, r, h2, hok, fun j hj => hall j (by simp [hj]),
                fun hc => absurd hc hsol⟩

/-- Dropping `i < n` elements of `range n` exposes `i` at the head. -/
theorem drop_range_cons (n i : Nat) (h : i < n) :
    (List.range n).drop i = i :: (List.range n).drop (i + 1) := by
  rw [List.drop_eq_getElem_cons (by simpa using h), List.getElem_range]

/-- `range n` splits at any `i < n` into the offsets before `i`, then `i`,
then the rest. -/
theorem range_decompose (n i : Nat) (h : i < n) :
    List.range n = List.range i ++ i :: (List.range n).drop (i + 1) := by
  conv_lhs => rw [← List.take_append_drop i (List.range n)]
  rw [List.take_range, Nat.min_eq_left (Nat.le_of_lt h), drop_range_cons n i h]

/-- Conversely, any split of `range n` around a distinguished element
identifies that element as the length of the left part, and the left part as
the offsets below it. -/
theorem range_decomp_inv (n : Nat) (l : List Nat) (i : Nat) (r : List Nat)
    (h : List.range n = l ++ i :: r) :
    i = l.length ∧ l = List.range l.length ∧ l.length < n := by
  have hlen : n = l.length + (r.length + 1) := by
    have h' := congrArg List.length h
    simpa [List.length_append] using h'
  have hl : l.length < n := by omega
  have hdrop := congrArg (List.drop l.length) h
  rw [List.drop_left, drop_range_cons n l.length hl] at hdrop
  injection hdrop with hi hr
  have htake := congrArg (List.take l.length) h
  rw [List.take_left, List.take_range, Nat.min_eq_left (Nat.le_of_lt hl)] at htake
  exact ⟨hi.symm, htake.symm, hl⟩

/-- C6 counterexample: the claim has every offset from 0 to the subject length
inclusive attempted; for the compiled `$` (no nodes, end-anchored) against
`"a"`, the attempt at offset 1 — the subject length — would succeed, yet
`match_pattern` returns `false`: the loop stops before offset `len`. -/
theorem c6_counterexample :
    Expression.try_from ("$".toList) = .ok ⟨[], false, true⟩ ∧
    Expression.match_str 9 ⟨[], false, true⟩ (("a".toList).drop 1) = .ok true ∧
    match_pattern 9 ("a".toList) ⟨[], false, true⟩ = .ok false :=
  ⟨rfl, rfl, rfl⟩

/-- C6 (amended): an empty subject is rejected with no attempt; otherwise the
candidate offsets are `0` to `input.length - 1` in increasing order, and
`is_match` returns `true` exactly when some such offset succeeds after all
earlier ones returned plain failure — with `start_of_line` set, only offset
`0` can be that offset (a failed anchored attempt returns `false` at once). -/
theorem c6_candidate_offsets (fuel : Nat) (e : Expression) (input : List Char) :
    match_pattern fuel input e = .ok true ↔
      ∃ i, i < input.length ∧ e.match_str fuel (input.drop i) = .ok true ∧
        (∀ j, j < i → e.match_str fuel (input.drop j) = .ok false) ∧
        (e.start_of_line = true → i = 0) := by
  rw [match_pattern]
  by_cases hs : input.isEmpty
  · rw [if_pos hs]
    have hnil : input = [] := List.isEmpty_iff.mp hs
    subst hnil
    simp
  · rw [if_neg hs]
    rw [match_pattern_go_iff (List.range input.length) fuel e input]
    constructor
    · rintro ⟨l, i, r, hd, hok, hall, hsol⟩
      obtain ⟨hi, hl, hlen⟩ := range_decomp_inv input.length l i r hd
      subst hi
      refine ⟨l.length, hlen, hok, ?_, ?_⟩
      · intro j hj
        apply hall
        rw [hl]
        exact List.mem_range.mpr hj
      · intro hc
        rw [hsol hc]
        rfl
    · rintro ⟨i, hi, hok, hall, hsol⟩
      refine ⟨List.range i, i, (List.range input.length).drop (i + 1),
        range_decompose input.length i hi, hok, ?_, ?_⟩
      · intro j hj
        exact hall j (List.mem_range.mp hj)
      · intro hc
        rw [hsol hc]
        rfl

/-- C6 witness: the empty (unanchored) expression against `"a"`: offset 0
succeeds. -/
theorem c6_witness :
    ∃ i, i < ("a".toList).length ∧
      Expression.match_str 3 ⟨[], false, false⟩ (("a".toList).drop i) = .ok true ∧
      (∀ j, j < i → Expression.match_str 3 ⟨[], false, false⟩ (("a".toList).drop j) = .ok false) ∧
      ((⟨[], false, false⟩ : Expression).start_of_line = true → i = 0) :=
  (c6_candidate_offsets 3 ⟨[], false, false⟩ ("a".toList)).mp rfl

end Grep
